import Mathlib

/-!
Shallow embedding of the `http-cache` repository's SQLite storage backend
(`src/http-cache/src/managers/sqlite.rs`) and of the reqwest transport
adapter (`src/http-cache-reqwest/src/lib.rs`), together with proofs of the
spec's claims about them.

Modelling conventions:
* Byte blobs are `List Nat` (each element one byte; the blob is opaque to
  the backend, so the byte width is irrelevant to every claim).
* The SQLite table `cache (req_key TEXT UNIQUE, store BLOB)` is an
  association list from key strings to blobs; `INSERT OR REPLACE` deletes
  the conflicting row and inserts the new one, `SELECT ... WHERE req_key = ?`
  is association lookup, `DELETE ... WHERE req_key = ?` removes matching rows.
* `bincode` is an external crate: it is modelled as a `Codec` record with a
  total serializer and a fallible deserializer, exactly the shape of
  `bincode::serialize` / `bincode::deserialize` as used by the source.
* Fallible Rust functions return `Except`; the pure model never produces
  the SQLite connection error, matching the fact that every claim is about
  the success path of the connection.
-/

namespace HttpCache

/-- Modelled from the spec: `StoredResponse` (the repository's `HttpResponse`
type lives in the crate root, which is not among the provided sources): status
code, response headers (string map), body bytes, effective URL, HTTP version.
The reqwest adapter confirms the field names `body`, `headers`, `status`,
`url`, `version`. -/
structure HttpResponse where
  body : List Nat
  headers : List (String × String)
  status : Nat
  url : String
  version : Nat
  deriving Repr, DecidableEq

/-- Modelled from the spec: `CachePolicyRecord` is opaque serializable state
produced by the external `http_cache_semantics::CachePolicy`; the backend
never inspects it, so it is an opaque blob. -/
structure CachePolicy where
  blob : List Nat
  deriving Repr, DecidableEq

/-- The row payload serialized into the `store` BLOB column:
`struct Store { response: HttpResponse, policy: CachePolicy }`
(src/http-cache/src/managers/sqlite.rs, lines 16-20). -/
structure Store where
  response : HttpResponse
  policy : CachePolicy
  deriving Repr, DecidableEq

/-- The external `bincode` crate as used by the backend: a total serializer
(`bincode::serialize` of an in-memory `Store` value) and a fallible
deserializer (`bincode::deserialize` of arbitrary bytes). -/
structure Codec where
  ser : Store → List Nat
  deser : List Nat → Option Store

/-- Length-prefixed encoding of a byte list; building block of the
reference codec below. -/
def encList (xs : List Nat) : List Nat :=
  xs.length :: xs

/-- Encoding of a string as the length-prefixed list of its character
codes. -/
def encStr (s : String) : List Nat :=
  encList (s.data.map Char.toNat)

/-- Encoding of a header list: entry count followed by the concatenated
name/value string encodings. -/
def encHeaderList (hs : List (String × String)) : List Nat :=
  hs.length :: (hs.map (fun h => encStr h.1 ++ encStr h.2)).flatten

/-- Reference serializer for `Store`: fields in declaration order. -/
def serStore (s : Store) : List Nat :=
  encList s.response.body ++ encHeaderList s.response.headers
    ++ [s.response.status] ++ encStr s.response.url ++ [s.response.version]
    ++ encList s.policy.blob

/-- Decoder for `encList`: reads the length prefix, fails on truncated
input, returns the decoded list and the remaining bytes. -/
def decList (bs : List Nat) : Option (List Nat × List Nat) :=
  match bs with
  | [] => none
  | n :: rest =>
    if n ≤ rest.length then some (rest.take n, rest.drop n) else none

/-- Decoder for `encStr`. -/
def decStr (bs : List Nat) : Option (String × List Nat) :=
  (decList bs).map (fun p => (String.mk (p.1.map Char.ofNat), p.2))

/-- Decoder for the header-list payload, given the entry count. -/
def decHeaderListAux : Nat → List Nat → Option (List (String × String) × List Nat)
  | 0, bs => some ([], bs)
  | n + 1, bs =>
    match decStr bs with
    | none => none
    | some (k, bs1) =>
      match decStr bs1 with
      | none => none
      | some (v, bs2) =>
        (decHeaderListAux n bs2).map (fun p => ((k, v) :: p.1, p.2))

/-- Reference deserializer for `Store`: fails on any malformed or
trailing input, inverting `serStore` on well-formed blobs. -/
def deserStore (bs : List Nat) : Option Store :=
  match decList bs with
  | none => none
  | some (body, bs1) =>
    match bs1 with
    | [] => none
    | hn :: bs2 =>
      match decHeaderListAux hn bs2 with
      | none => none
      | some (hs, bs3) =>
        match bs3 with
        | [] => none
        | status :: bs4 =>
          match decStr bs4 with
          | none => none
          | some (url, bs5) =>
            match bs5 with
            | [] => none
            | version :: bs6 =>
              match decList bs6 with
              | none => none
              | some (blob, bs7) =>
                if bs7.isEmpty then
                  some ⟨⟨body, hs, status, url, version⟩, ⟨blob⟩⟩
                else none

/-- A concrete executable `Codec` built from the reference
serializer/deserializer; used to instantiate codec-parametric theorems on
concrete inputs. -/
def binCodec : Codec :=
  ⟨serStore, deserStore⟩

/-- Source `fn req_key(method: &str, url: &Url) -> String { format!("{method}:{url}") }`
(src/http-cache/src/managers/sqlite.rs, lines 22-24). The `Url` argument is
represented by its normalized string rendering, which is what `format!`
interpolates. -/
def req_key (method : String) (url : String) : String :=
  method ++ ":" ++ url

/-- The `cache` table: rows of (req_key, store BLOB). The table carries a
UNIQUE constraint on req_key; the operations below maintain it. -/
def DB : Type := List (String × List Nat)

instance : DecidableEq DB := by
  unfold DB
  infer_instance

/-- Query `SELECT store FROM cache WHERE req_key = ?1`, first row if any. -/
def dbLookup (db : DB) (k : String) : Option (List Nat) :=
  (db.find? (fun p => p.1 == k)).map (·.2)

/-- Statement `INSERT OR REPLACE INTO cache (req_key, store) VALUES (?1, ?2)`:
SQLite deletes any row conflicting on the UNIQUE req_key column and inserts
the new row. -/
def dbInsertOrReplace (db : DB) (k : String) (v : List Nat) : DB :=
  (k, v) :: db.filter (fun p => !(p.1 == k))

/-- Statement `DELETE FROM cache WHERE req_key = ?1`. -/
def dbDelete (db : DB) (k : String) : DB :=
  db.filter (fun p => !(p.1 == k))

/-- Number of rows stored under a given key. -/
def dbCountKey (db : DB) (k : String) : Nat :=
  (db.filter (fun p => p.1 == k)).length

/-- SQLite-level errors (connection/statement failures). The pure model of
the success path never produces one; the constructor records the shape of
the Rust `Result`. -/
inductive DbError where
  | sqlite
  deriving Repr, DecidableEq

namespace SqliteManager

/-- Source `SqliteManager::write` (sqlite.rs lines 79-92): serialize the store with
bincode, then `INSERT OR REPLACE`. Returns the updated table. -/
def write (c : Codec) (db : DB) (key : String) (s : Store) :
    Except DbError DB :=
  .ok (dbInsertOrReplace db key (c.ser s))

/-- Source `SqliteManager::read` (sqlite.rs lines 94-113): select the row for the
key; absent row gives `Ok(None)`; a row whose blob fails `bincode`
deserialization also gives `Ok(None)` (the `if let Ok(..)` with an
`Ok(None)` else-branch). -/
def read (c : Codec) (db : DB) (key : String) :
    Except DbError (Option Store) :=
  match dbLookup db key with
  | none => .ok none
  | some bytes =>
    match c.deser bytes with
    | some s => .ok (some s)
    | none => .ok none

/-- Source `SqliteManager::delete` (sqlite.rs lines 115-126): `DELETE ... WHERE
req_key = ?1`; returns the updated table. -/
def deleteKey (db : DB) (key : String) : Except DbError DB :=
  .ok (dbDelete db key)

/-- Source `CacheManager::get` for `SqliteManager` (sqlite.rs lines 142-152):
read the row under `req_key(method, url)` and split the store into the
(response, policy) pair. -/
def get (c : Codec) (db : DB) (method url : String) :
    Except DbError (Option (HttpResponse × CachePolicy)) :=
  match read c db (req_key method url) with
  | .error e => .error e
  | .ok none => .ok none
  | .ok (some s) => .ok (some (s.response, s.policy))

/-- Source `CacheManager::put` for `SqliteManager` (sqlite.rs lines 154-164): build
`Store { response: response.clone(), policy }`, write it under
`req_key(method, url)`, and return the response argument. The pair carries
the returned response together with the updated table. -/
def put (c : Codec) (db : DB) (method url : String)
    (response : HttpResponse) (policy : CachePolicy) :
    Except DbError (HttpResponse × DB) :=
  match write c db (req_key method url) ⟨response, policy⟩ with
  | .error e => .error e
  | .ok db2 => .ok (response, db2)

/-- Source `CacheManager::delete` for `SqliteManager` (sqlite.rs lines 166-168). -/
def delete (db : DB) (method url : String) : Except DbError DB :=
  deleteKey db (req_key method url)

end SqliteManager

end HttpCache

namespace Reqwest

/-- A reqwest request body: either buffered bytes (replayable) or a stream,
which `reqwest::Request::try_clone` cannot duplicate. -/
inductive ReqBody where
  | buffered (data : List Nat)
  | stream
  deriving Repr, DecidableEq

/-- A `reqwest::Request`: method, URL, header multimap (an `http::HeaderMap`
may hold several values under one name; values are byte strings), and an
optional body. -/
structure Request where
  method : String
  url : String
  headers : List (String × List Nat)
  body : Option ReqBody
  deriving Repr, DecidableEq

/-- External `reqwest::Request::try_clone`: duplicates the request, returning `None`
exactly when the body is a stream that cannot be replayed. -/
def Request.tryClone (r : Request) : Option Request :=
  match r.body with
  | some .stream => none
  | _ => some r

/-- Transport-level failure of the wrapped client (the `next.run` call or
the body download). External collaborator outcome. -/
inductive NetError where
  | transport
  deriving Repr, DecidableEq

/-- Middleware-level errors of src/http-cache-reqwest/src/lib.rs:
`BadRequest` from a failed clone, a `ToStrError` from
`HeaderValue::to_str`, or a propagated transport error. -/
inductive MwError where
  | badRequest
  | headerToStr
  | net (e : NetError)
  deriving Repr, DecidableEq

/-- Source `fn clone_req(request: &Request) -> Result<Request, Error>`
(lib.rs lines 86-91): `try_clone`, mapping `None` to the `BadRequest`
middleware error. -/
def clone_req (r : Request) : Except MwError Request :=
  match r.tryClone with
  | some c => .ok c
  | none => .error .badRequest

/-- External `http::request::Parts` as used by the middleware: method, URL and
headers of the request. -/
structure Parts where
  method : String
  url : String
  headers : List (String × List Nat)
  deriving Repr, DecidableEq

/-- Source `ReqwestMiddleware::parts` (lib.rs lines 125-132): clone the request
(failing with `BadRequest` when the body is not duplicable), convert it to
an `http::Request`, and return its parts. -/
def ReqwestMiddleware.parts (r : Request) : Except MwError Parts :=
  match clone_req r with
  | .error e => .error e
  | .ok c => .ok ⟨c.method, c.url, c.headers⟩

/-- External `http::HeaderMap::insert`: every previously stored value under the name
is removed and the single new value is stored. Row order inside the map is
irrelevant for lookup. -/
def hmInsert (m : List (String × α)) (k : String) (v : α) :
    List (String × α) :=
  m.filter (fun p => !(p.1 == k)) ++ [(k, v)]

/-- All values stored under a name, in map order. -/
def hmValues (m : List (String × α)) (k : String) : List α :=
  (m.filter (fun p => p.1 == k)).map (·.2)

/-- Left-to-right insertion of a list of headers into a map, one
`hmInsert` per entry. -/
def hmInsertAll (acc : List (String × α)) (hs : List (String × α)) :
    List (String × α) :=
  hs.foldl (fun hm h => hmInsert hm h.1 h.2) acc

/-- Source `ReqwestMiddleware::update_headers` (lib.rs lines 113-118): for every
header of `parts`, `insert` it into the request's header map. -/
def ReqwestMiddleware.update_headers (r : Request) (p : Parts) : Request :=
  { r with headers := hmInsertAll r.headers p.headers }

/-- Source `ReqwestMiddleware::url` (lib.rs lines 133-135): a clone of the
request's URL, wrapped in `Ok`. -/
def ReqwestMiddleware.urlOf (r : Request) : Except MwError String :=
  .ok r.url

/-- Source `ReqwestMiddleware::method` (lib.rs lines 136-138): the request method
rendered as a string, wrapped in `Ok`. -/
def ReqwestMiddleware.methodOf (r : Request) : Except MwError String :=
  .ok r.method

/-- The storage key the engine derives for a middleware request: `req_key`
applied to the strings produced by `ReqwestMiddleware::{method, url}`. -/
def requestKey (r : Request) : String :=
  HttpCache.req_key r.method r.url

/-- The `http` crate's visible-ASCII test backing `HeaderValue::to_str`:
a byte passes iff it is in 32..126 or is the horizontal tab. -/
def isVisibleAscii (b : Nat) : Bool :=
  (32 ≤ b && b < 127) || b == 9

/-- External `HeaderValue::to_str`: succeeds with the decoded string iff every byte
is visible ASCII, otherwise a `ToStrError`. -/
def headerValueToStr (v : List Nat) : Option String :=
  if v.all isVisibleAscii then some (String.mk (v.map Char.ofNat)) else none

/-- The network response observed by `remote_fetch` before conversion: the
wrapped client's headers (a multimap), effective (post-redirect) URL,
status, protocol version, and fully buffered body bytes. -/
structure NetResponse where
  headers : List (String × List Nat)
  url : String
  status : Nat
  version : Nat
  body : List Nat
  deriving Repr, DecidableEq

/-- The value of the last occurrence of a header name in a header
multimap, if any; specification vocabulary for the header-collapsing
behaviour of `remote_fetch`. -/
def lastIn : List (String × List Nat) → String → Option (List Nat)
  | [], _ => none
  | (k, v) :: rest, n =>
    match lastIn rest n with
    | some w => some w
    | none => if k == n then some v else none

/-- The header-collection loop of `remote_fetch` (lib.rs lines 146-152):
starting from an empty `HashMap`, each response header value is converted
with `to_str` — the first failure aborts the whole fetch via `?` — and
inserted under its name, a later insertion overwriting an earlier one. -/
def collectHeadersAux (acc : List (String × String)) :
    List (String × List Nat) → Except MwError (List (String × String))
  | [] => .ok acc
  | h :: rest =>
    match headerValueToStr h.2 with
    | some s => collectHeadersAux (hmInsert acc h.1 s) rest
    | none => .error .headerToStr

/-- Source `ReqwestMiddleware::remote_fetch` (lib.rs lines 139-168): clone the
request (failing with `BadRequest` if the body is not duplicable), run the
wrapped client — its outcome, including the buffered body download, is the
`net` parameter — then build the `HttpResponse` from the collected headers,
effective URL, status, version and body bytes. -/
def ReqwestMiddleware.remote_fetch (r : Request)
    (net : Except NetError NetResponse) :
    Except MwError HttpCache.HttpResponse :=
  match clone_req r with
  | .error e => .error e
  | .ok _ =>
    match net with
    | .error e => .error (.net e)
    | .ok res =>
      match collectHeadersAux [] res.headers with
      | .error e => .error e
      | .ok hdrs =>
        .ok { body := res.body, headers := hdrs, status := res.status,
              url := res.url, version := res.version }

end Reqwest

/-!
## Lemmas and claim theorems
-/

open HttpCache Reqwest

theorem dbLookup_insertOrReplace_self (db : DB) (k : String) (v : List Nat) :
    dbLookup (dbInsertOrReplace db k v) k = some v := by
  simp [dbLookup, dbInsertOrReplace]

theorem dbCountKey_insertOrReplace_self (db : DB) (k : String) (v : List Nat) :
    dbCountKey (dbInsertOrReplace db k v) k = 1 := by
  simp [dbCountKey, dbInsertOrReplace, List.filter_filter]

theorem dbLookup_delete_self (db : DB) (k : String) :
    dbLookup (dbDelete db k) k = none := by
  simp [dbLookup, dbDelete, List.find?_eq_none]

theorem dbDelete_absent (db : DB) (k : String) (h : dbLookup db k = none) :
    dbDelete db k = db := by
  unfold dbDelete
  rw [List.filter_eq_self]
  intro a ha
  unfold dbLookup at h
  rw [Option.map_eq_none', List.find?_eq_none] at h
  simpa using h a ha

/-- C1: `SqliteManager::get` returns `Ok(None)` both when no row exists for
the derived key and when the stored blob fails to deserialize; on the
success path of the connection it always returns `Ok`, so a
deserialization failure is never propagated as an error. -/
theorem sqlite_get_absent_or_corrupted (c : Codec) (db : DB)
    (method url : String) :
    (∃ o, SqliteManager.get c db method url = .ok o)
    ∧ (dbLookup db (req_key method url) = none →
        SqliteManager.get c db method url = .ok none)
    ∧ (∀ bytes, dbLookup db (req_key method url) = some bytes →
        c.deser bytes = none →
        SqliteManager.get c db method url = .ok none) := by
  unfold SqliteManager.get SqliteManager.read
  refine ⟨?_, ?_, ?_⟩
  · rcases hl : dbLookup db (req_key method url) with _ | bytes
    · exact ⟨none, by simp [hl]⟩
    · rcases hd : c.deser bytes with _ | s
      · exact ⟨none, by simp [hl, hd]⟩
      · exact ⟨some (s.response, s.policy), by simp [hl, hd]⟩
  · intro h
    simp [h]
  · intro bytes h1 h2
    simp [h1, h2]

/-- Witness for C1: the empty table misses, and a table holding an
undecodable blob under the very key queried also yields `Ok(None)`. -/
theorem sqlite_get_absent_or_corrupted_witness :
    SqliteManager.get binCodec [] "GET" "https://example.test/a" = .ok none
    ∧ SqliteManager.get binCodec
        [("GET:https://example.test/a", [5])] "GET" "https://example.test/a"
        = .ok none :=
  ⟨(sqlite_get_absent_or_corrupted binCodec [] "GET"
      "https://example.test/a").2.1 (by decide),
   (sqlite_get_absent_or_corrupted binCodec
      [("GET:https://example.test/a", [5])] "GET"
      "https://example.test/a").2.2 [5] (by decide) (by decide)⟩

/-- C2: after a successful `put`, `get` with the same method and URL
returns `Some` of exactly the stored response and policy, provided the
codec round-trips the stored value (the bincode contract). -/
theorem sqlite_put_get_roundtrip (c : Codec) (db : DB) (method url : String)
    (response : HttpResponse) (policy : CachePolicy)
    (h : c.deser (c.ser ⟨response, policy⟩) = some ⟨response, policy⟩) :
    ∃ db2,
      SqliteManager.put c db method url response policy = .ok (response, db2)
      ∧ SqliteManager.get c db2 method url = .ok (some (response, policy)) := by
  refine ⟨_, rfl, ?_⟩
  unfold SqliteManager.get SqliteManager.read
  rw [dbLookup_insertOrReplace_self]
  simp [h]

/-- Witness for C2: a concrete response/policy stored through the
reference codec round-trips byte-identically. -/
theorem sqlite_put_get_roundtrip_witness :
    ∃ db2,
      SqliteManager.put binCodec [] "GET" "https://example.test/a"
          ⟨[104, 105], [("content-type", "text/plain")], 200,
            "https://example.test/a", 2⟩ ⟨[1, 2]⟩
        = .ok (⟨[104, 105], [("content-type", "text/plain")], 200,
            "https://example.test/a", 2⟩, db2)
      ∧ SqliteManager.get binCodec db2 "GET" "https://example.test/a"
        = .ok (some (⟨[104, 105], [("content-type", "text/plain")], 200,
            "https://example.test/a", 2⟩, ⟨[1, 2]⟩)) :=
  sqlite_put_get_roundtrip binCodec [] "GET" "https://example.test/a"
    ⟨[104, 105], [("content-type", "text/plain")], 200,
      "https://example.test/a", 2⟩ ⟨[1, 2]⟩ (by decide)

/-- C3: two identical `put` calls both succeed (INSERT OR REPLACE raises no
key-collision error), the table afterwards holds exactly one row for the
derived key, and `get` after the second put observes the same entry as
after a single put. -/
theorem sqlite_put_twice_idempotent (c : Codec) (db : DB)
    (method url : String) (response : HttpResponse) (policy : CachePolicy) :
    ∃ db1 db2,
      SqliteManager.put c db method url response policy = .ok (response, db1)
      ∧ SqliteManager.put c db1 method url response policy
          = .ok (response, db2)
      ∧ dbCountKey db2 (req_key method url) = 1
      ∧ SqliteManager.get c db2 method url
          = SqliteManager.get c db1 method url := by
  refine ⟨_, _, rfl, rfl, dbCountKey_insertOrReplace_self _ _ _, ?_⟩
  unfold SqliteManager.get SqliteManager.read
  rw [dbLookup_insertOrReplace_self, dbLookup_insertOrReplace_self]

/-- C7: `SqliteManager::put` passes the response argument through
unchanged, returning it alongside the table updated by INSERT OR REPLACE
under the derived key. -/
theorem sqlite_put_passthrough (c : Codec) (db : DB) (method url : String)
    (response : HttpResponse) (policy : CachePolicy) :
    SqliteManager.put c db method url response policy
      = .ok (response,
          dbInsertOrReplace db (req_key method url)
            (c.ser ⟨response, policy⟩)) := rfl

/-- C9: `SqliteManager::delete` always succeeds, leaves no row under the
derived key, and is a no-op when no row for the key exists. -/
theorem sqlite_delete_idempotent (db : DB) (method url : String) :
    (∃ db2, SqliteManager.delete db method url = .ok db2
      ∧ dbLookup db2 (req_key method url) = none)
    ∧ (dbLookup db (req_key method url) = none →
        SqliteManager.delete db method url = .ok db) := by
  constructor
  · exact ⟨dbDelete db (req_key method url), rfl, dbLookup_delete_self _ _⟩
  · intro h
    unfold SqliteManager.delete SqliteManager.deleteKey
    rw [dbDelete_absent _ _ h]

/-- Witness for C9: deleting an absent key from a nonempty table succeeds
and changes nothing. -/
theorem sqlite_delete_idempotent_witness :
    SqliteManager.delete [("GET:https://example.test/b", [7])] "GET"
        "https://example.test/a"
      = .ok [("GET:https://example.test/b", [7])] :=
  (sqlite_delete_idempotent [("GET:https://example.test/b", [7])] "GET"
    "https://example.test/a").2 (by decide)

theorem hmValues_hmInsert_self (m : List (String × α)) (k : String) (v : α) :
    hmValues (hmInsert m k v) k = [v] := by
  unfold hmValues hmInsert
  rw [List.filter_append, List.filter_filter]
  simp

theorem hmValues_hmInsert_ne (m : List (String × α)) (k n : String) (v : α)
    (h : n ≠ k) :
    hmValues (hmInsert m k v) n = hmValues m n := by
  unfold hmValues hmInsert
  rw [List.filter_append, List.filter_filter]
  have hkn : (k == n) = false := by
    rw [beq_eq_false_iff_ne]
    exact fun e => h e.symm
  simp [hkn]
  congr 1
  apply List.filter_congr
  intro p hp
  by_cases hpn : p.1 = n
  · have hk : (p.1 == k) = false := by
      rw [beq_eq_false_iff_ne]
      exact fun e => h (hpn ▸ e)
    simp [hpn, hk, h]
  · simp [hpn]

theorem hmValues_hmInsertAll_not_mem (hs : List (String × α))
    (acc : List (String × α)) (n : String)
    (h : n ∉ hs.map Prod.fst) :
    hmValues (hmInsertAll acc hs) n = hmValues acc n := by
  induction hs generalizing acc with
  | nil => rfl
  | cons hd tl ih =>
    have h1 : n ≠ hd.1 := by
      intro e
      exact h (by simp [e])
    have h2 : n ∉ tl.map Prod.fst := by
      intro hmem
      exact h (by simp [hmem])
    rw [show hmInsertAll acc (hd :: tl)
          = hmInsertAll (hmInsert acc hd.1 hd.2) tl from rfl]
    rw [ih _ h2, hmValues_hmInsert_ne _ _ _ _ h1]

theorem hmValues_hmInsertAll_mem (hs : List (String × α))
    (acc : List (String × α)) (n : String) (v : α)
    (hnd : (hs.map Prod.fst).Nodup) (hmem : (n, v) ∈ hs) :
    hmValues (hmInsertAll acc hs) n = [v] := by
  induction hs generalizing acc with
  | nil => cases hmem
  | cons hd tl ih =>
    rw [show hmInsertAll acc (hd :: tl)
          = hmInsertAll (hmInsert acc hd.1 hd.2) tl from rfl]
    have hnd2 : hd.1 ∉ tl.map Prod.fst ∧ (tl.map Prod.fst).Nodup := by
      rw [List.map_cons, List.nodup_cons] at hnd
      exact hnd
    rcases List.mem_cons.mp hmem with heq | hmem2
    · subst heq
      rw [hmValues_hmInsertAll_not_mem _ _ _ hnd2.1]
      exact hmValues_hmInsert_self _ _ _
    · exact ih _ hnd2.2 hmem2

/-- Shared helper: `clone_req` succeeds with an identical duplicate
whenever the body is not a non-replayable stream. -/
theorem clone_req_of_not_stream (r : Request) (h : r.body ≠ some .stream) :
    clone_req r = .ok r := by
  unfold clone_req Request.tryClone
  rcases hb : r.body with _ | b
  · simp
  · cases b
    · simp
    · exact absurd hb h

/-- C5: for a request whose body cannot be duplicated (a consumed stream),
`clone_req` fails with `BadRequest` — and so do the operations that clone,
`parts` and `remote_fetch`, for any network outcome, rather than sending an
altered request; for every duplicable request `clone_req` returns an
identical duplicate. -/
theorem clone_req_fails_or_duplicates (r : Request) :
    (r.body = some .stream →
      clone_req r = .error .badRequest
      ∧ ReqwestMiddleware.parts r = .error .badRequest
      ∧ ∀ net, ReqwestMiddleware.remote_fetch r net = .error .badRequest)
    ∧ (r.body ≠ some .stream → clone_req r = .ok r) := by
  constructor
  · intro h
    have hc : clone_req r = .error .badRequest := by
      unfold clone_req Request.tryClone
      simp [h]
    refine ⟨hc, ?_, ?_⟩
    · unfold ReqwestMiddleware.parts
      rw [hc]
    · intro net
      unfold ReqwestMiddleware.remote_fetch
      rw [hc]
  · exact clone_req_of_not_stream r

/-- Witness for C5: a streaming-body request is rejected with `BadRequest`
while a buffered-body request is duplicated unchanged. -/
theorem clone_req_fails_or_duplicates_witness :
    clone_req ⟨"POST", "https://example.test/a", [], some .stream⟩
        = .error .badRequest
    ∧ clone_req ⟨"POST", "https://example.test/a", [], some (.buffered [1])⟩
        = .ok ⟨"POST", "https://example.test/a", [], some (.buffered [1])⟩ :=
  ⟨((clone_req_fails_or_duplicates
      ⟨"POST", "https://example.test/a", [], some .stream⟩).1 rfl).1,
   (clone_req_fails_or_duplicates
      ⟨"POST", "https://example.test/a", [], some (.buffered [1])⟩).2
      (by decide)⟩

/-- C6: the storage key is exactly the string METHOD ++ ":" ++ URL; it
agrees for any two requests with equal method and URL regardless of any
other request content, and the middleware accessors expose exactly the
request's method string and URL. -/
theorem req_key_deterministic (m u : String) (r1 r2 : Request)
    (hm : r1.method = r2.method) (hu : r1.url = r2.url) :
    req_key m u = m ++ ":" ++ u
    ∧ requestKey r1 = requestKey r2
    ∧ ReqwestMiddleware.methodOf r1 = .ok r1.method
    ∧ ReqwestMiddleware.urlOf r1 = .ok r1.url := by
  refine ⟨rfl, ?_, rfl, rfl⟩
  unfold requestKey HttpCache.req_key
  rw [hm, hu]

/-- Witness for C6: requests differing in headers and body but agreeing on
method and URL produce the same key, which is the plain METHOD:URL
string. -/
theorem req_key_deterministic_witness :
    req_key "GET" "https://example.test/a" = "GET:https://example.test/a"
    ∧ requestKey ⟨"GET", "https://example.test/a", [("a", [1])], none⟩
        = requestKey ⟨"GET", "https://example.test/a", [("b", [2])],
            some (.buffered [9])⟩ := by
  have h := req_key_deterministic "GET" "https://example.test/a"
    ⟨"GET", "https://example.test/a", [("a", [1])], none⟩
    ⟨"GET", "https://example.test/a", [("b", [2])], some (.buffered [9])⟩
    rfl rfl
  exact ⟨h.1.trans (by decide), h.2.1⟩

/-- C8: after `update_headers`, every header name of the applied set maps
to exactly its applied value (previous values for the name are gone),
every name outside the applied set keeps its values unchanged, and the
rest of the request (method, URL, body) is untouched. The applied set is a
name-to-value map, i.e. carries each name once. -/
theorem update_headers_applies_and_frames (r : Request) (p : Parts)
    (hnd : (p.headers.map Prod.fst).Nodup) :
    (∀ nv ∈ p.headers,
        hmValues (ReqwestMiddleware.update_headers r p).headers nv.1
          = [nv.2])
    ∧ (∀ n, n ∉ p.headers.map Prod.fst →
        hmValues (ReqwestMiddleware.update_headers r p).headers n
          = hmValues r.headers n)
    ∧ (ReqwestMiddleware.update_headers r p).method = r.method
    ∧ (ReqwestMiddleware.update_headers r p).url = r.url
    ∧ (ReqwestMiddleware.update_headers r p).body = r.body := by
  refine ⟨?_, ?_, rfl, rfl, rfl⟩
  · intro nv hmem
    exact hmValues_hmInsertAll_mem _ _ _ _ hnd (by simpa using hmem)
  · intro n hn
    exact hmValues_hmInsertAll_not_mem _ _ _ hn

/-- Witness for C8: applying a revalidation header overwrites both stored
values under that name, while an untouched name keeps its two values in
order. -/
theorem update_headers_applies_and_frames_witness :
    hmValues (ReqwestMiddleware.update_headers
        ⟨"GET", "https://example.test/a",
          [("accept", [42]), ("if-none-match", [97]), ("accept", [43])],
          none⟩
        ⟨"GET", "https://example.test/a", [("if-none-match", [98])]⟩).headers
        "if-none-match" = [[98]]
    ∧ hmValues (ReqwestMiddleware.update_headers
        ⟨"GET", "https://example.test/a",
          [("accept", [42]), ("if-none-match", [97]), ("accept", [43])],
          none⟩
        ⟨"GET", "https://example.test/a", [("if-none-match", [98])]⟩).headers
        "accept" = [[42], [43]] := by
  have h := update_headers_applies_and_frames
    ⟨"GET", "https://example.test/a",
      [("accept", [42]), ("if-none-match", [97]), ("accept", [43])], none⟩
    ⟨"GET", "https://example.test/a", [("if-none-match", [98])]⟩
    (by decide)
  exact ⟨h.1 ("if-none-match", [98]) (by decide),
    (h.2.1 "accept" (by decide)).trans (by decide)⟩

theorem collectHeadersAux_err (hs : List (String × List Nat))
    (acc : List (String × String))
    (h : ∃ nv ∈ hs, headerValueToStr nv.2 = none) :
    collectHeadersAux acc hs = .error .headerToStr := by
  induction hs generalizing acc with
  | nil =>
    rcases h with ⟨nv, hmem, _⟩
    cases hmem
  | cons hd tl ih =>
    rcases h with ⟨nv, hmem, hbad⟩
    rcases List.mem_cons.mp hmem with heq | hmem2
    · subst heq
      simp [collectHeadersAux, hbad]
    · rcases hv : headerValueToStr hd.2 with _ | s
      · simp [collectHeadersAux, hv]
      · simp only [collectHeadersAux, hv]
        exact ih _ ⟨nv, hmem2, hbad⟩

/-- C10: if any header value of the successful network response contains a
byte outside visible ASCII, `remote_fetch` fails for the whole fetch: the
header is not skipped and no `HttpResponse` is returned. -/
theorem remote_fetch_bad_header_value (r : Request) (res : NetResponse)
    (h : ∃ nv ∈ res.headers, headerValueToStr nv.2 = none) :
    ∃ e, ReqwestMiddleware.remote_fetch r (.ok res) = .error e := by
  unfold ReqwestMiddleware.remote_fetch
  rcases hc : clone_req r with e | c
  · exact ⟨e, by simp [hc]⟩
  · exact ⟨.headerToStr, by simp [hc, collectHeadersAux_err _ _ h]⟩

/-- Witness for C10: a single header whose value holds the byte 200 makes
the whole fetch fail. -/
theorem remote_fetch_bad_header_value_witness :
    ∃ e, ReqwestMiddleware.remote_fetch
        ⟨"GET", "https://example.test/a", [], none⟩
        (.ok ⟨[("x-bin", [200])], "https://example.test/a", 200, 2, []⟩)
      = .error e :=
  remote_fetch_bad_header_value
    ⟨"GET", "https://example.test/a", [], none⟩
    ⟨[("x-bin", [200])], "https://example.test/a", 200, 2, []⟩
    ⟨("x-bin", [200]), by decide, by decide⟩

theorem collectHeadersAux_ok (hs : List (String × List Nat))
    (acc : List (String × String))
    (h : ∀ nv ∈ hs, headerValueToStr nv.2 ≠ none) :
    ∃ out, collectHeadersAux acc hs = .ok out
      ∧ ∀ n, hmValues out n =
          match lastIn hs n with
          | some v => (headerValueToStr v).toList
          | none => hmValues acc n := by
  induction hs generalizing acc with
  | nil => exact ⟨acc, rfl, fun n => by simp [lastIn]⟩
  | cons hd tl ih =>
    have hhd := h hd (List.mem_cons_self _ _)
    rcases hv : headerValueToStr hd.2 with _ | s
    · exact absurd hv hhd
    · have h2 : ∀ nv ∈ tl, headerValueToStr nv.2 ≠ none :=
        fun nv hm => h nv (List.mem_cons_of_mem _ hm)
      rcases ih (hmInsert acc hd.1 s) h2 with ⟨out, hout, hch⟩
      refine ⟨out, ?_, ?_⟩
      · simp only [collectHeadersAux, hv]
        exact hout
      · intro n
        rw [hch n]
        rcases hl : lastIn tl n with _ | w
        · by_cases hn : hd.1 = n
          · subst hn
            simp [lastIn, hl, hv, hmValues_hmInsert_self]
          · have hne : n ≠ hd.1 := fun e => hn e.symm
            have hb : (hd.1 == n) = false := by
              rw [beq_eq_false_iff_ne]
              exact hn
            simp [lastIn, hl, hb, hmValues_hmInsert_ne _ _ _ _ hne]
        · simp [lastIn, hl]

/-- C4 counterexample: a network response carrying two values under one
header name; `remote_fetch` keeps only the last, so the first name/value
pair of the response is absent from the returned `HttpResponse` even
though its value converts to a string: the response's headers are NOT all
captured. -/
theorem remote_fetch_dup_header_counterexample :
    ReqwestMiddleware.remote_fetch
        ⟨"GET", "https://example.test/a", [], none⟩
        (.ok ⟨[("set-cookie", [97]), ("set-cookie", [98])],
          "https://example.test/a", 200, 2, [104]⟩)
      = .ok ⟨[104], [("set-cookie", "b")], 200, "https://example.test/a", 2⟩
    ∧ ("set-cookie", [97])
        ∈ [("set-cookie", [97]), ("set-cookie", [98])]
    ∧ headerValueToStr [97] = some "a"
    ∧ ("set-cookie", "a") ∉ [("set-cookie", "b")] := by
  refine ⟨rfl, by decide, by decide, by decide⟩

/-- C4 (amended): for every duplicable request whose network response
succeeds and all of whose header values are string-representable,
`remote_fetch` returns an `HttpResponse` carrying the response's status,
full buffered body bytes, effective URL and protocol version, and a header
map in which each header name of the response maps to the string of the
value of its last occurrence (duplicate occurrences of a name collapse to
the last); names absent from the response are absent from the map. -/
theorem remote_fetch_captures (r : Request) (res : NetResponse)
    (hclone : r.body ≠ some .stream)
    (hv : ∀ nv ∈ res.headers, headerValueToStr nv.2 ≠ none) :
    ∃ hdrs,
      ReqwestMiddleware.remote_fetch r (.ok res)
        = .ok ⟨res.body, hdrs, res.status, res.url, res.version⟩
      ∧ ∀ n, hmValues hdrs n =
          match lastIn res.headers n with
          | some v => (headerValueToStr v).toList
          | none => [] := by
  rcases collectHeadersAux_ok res.headers [] hv with ⟨out, hout, hch⟩
  refine ⟨out, ?_, ?_⟩
  · unfold ReqwestMiddleware.remote_fetch
    simp [clone_req_of_not_stream r hclone, hout]
  · intro n
    rw [hch n]
    rcases lastIn res.headers n with _ | w
    · simp [hmValues]
    · rfl

/-- Witness for C4 (amended): a concrete fetch captures body, status, URL
and version, and maps the duplicated header name to its last value. -/
theorem remote_fetch_captures_witness :
    ∃ hdrs,
      ReqwestMiddleware.remote_fetch
          ⟨"GET", "https://example.test/a", [], some (.buffered [3])⟩
          (.ok ⟨[("set-cookie", [97]), ("set-cookie", [98])],
            "https://example.test/b", 200, 2, [104, 105]⟩)
        = .ok ⟨[104, 105], hdrs, 200, "https://example.test/b", 2⟩
      ∧ hmValues hdrs "set-cookie" = ["b"] := by
  rcases remote_fetch_captures
      ⟨"GET", "https://example.test/a", [], some (.buffered [3])⟩
      ⟨[("set-cookie", [97]), ("set-cookie", [98])],
        "https://example.test/b", 200, 2, [104, 105]⟩
      (by decide) (by decide) with ⟨hdrs, h1, h2⟩
  refine ⟨hdrs, h1, ?_⟩
  rw [h2 "set-cookie"]
  decide
